import Mathlib

/-!
Shallow embedding of `src/main.rs` of eranif/ollama-model-installer.

The program downloads a URL into `<directory>/<filename>`, writes a
descriptor file `<directory>/ModelFile` containing `FROM <path>`, and then
optionally invokes the `ollama` executable found on `PATH`.

Modelling conventions:
* Bytes are `Nat`, byte strings are `List Nat`.
* External effects of `main` are recorded as an ordered trace of `Event`s;
  `main` returns the trace together with `Except MainErr Unit` (the value of
  the Rust `main`, whose `Err` makes the process exit non-zero).
* Results of third-party calls (URL parsing by the `url` crate, the HTTP
  response delivered by `reqwest`, the `PATH` variable, the file-existence
  test used by `which`, and the subprocess outcome) are inputs in `Env`,
  since their implementations are not part of this repository.
* Filesystem operations of the happy path of `main` are modelled as
  infallible trace events; the fallible helper `write_to_file` is modelled
  separately and in full (`write_to_file` below) with each of its five
  filesystem steps allowed to fail.
-/

/-- A decimal digit character, as produced by chrono's zero padding:
the low decimal digit of `n`. -/
def digitChar (n : Nat) : Char :=
  match n % 10 with
  | 0 => '0' | 1 => '1' | 2 => '2' | 3 => '3' | 4 => '4'
  | 5 => '5' | 6 => '6' | 7 => '7' | 8 => '8' | _ => '9'

/-- Two-digit zero padded decimal, chrono `%m`/`%d`/`%H`/`%M`/`%S` for
in-range field values (chrono timestamps always carry in-range fields). -/
def pad2 (n : Nat) : String := String.mk [digitChar (n / 10), digitChar n]

/-- Four-digit zero padded decimal, chrono `%Y` for years below 10000. -/
def pad4 (n : Nat) : String :=
  String.mk [digitChar (n / 1000), digitChar (n / 100), digitChar (n / 10), digitChar n]

/-- A UTC wall-clock instant, the relevant fields of `chrono::Utc::now()`. -/
structure Timestamp where
  year : Nat
  month : Nat
  day : Nat
  hour : Nat
  minute : Nat
  second : Nat
deriving DecidableEq

/-- Field ranges guaranteed by chrono for a real UTC instant (years of the
current era below 10000, so that `%Y` prints exactly four digits). -/
def Timestamp.valid (t : Timestamp) : Prop :=
  t.year < 10000 ∧ 1 ≤ t.month ∧ t.month ≤ 12 ∧ 1 ≤ t.day ∧ t.day ≤ 31 ∧
    t.hour < 24 ∧ t.minute < 60 ∧ t.second < 60

/-- chrono format string `%Y%m%d_%H%M%S` (main.rs line 160). -/
def Timestamp.format (t : Timestamp) : String :=
  pad4 t.year ++ pad2 t.month ++ pad2 t.day ++ "_" ++
    pad2 t.hour ++ pad2 t.minute ++ pad2 t.second

/-- The error kinds with which the Rust `main` can return `Err` in the
modelled flow (the spec's `InvalidUrl`, `HttpStatusError{code}`,
`NetworkError`). -/
inductive MainErr where
  | invalidUrl
  | httpStatus (code : Nat)
  | network
deriving DecidableEq

/-- `derive_filename_from_url` (main.rs lines 152-162).

`parsedUrl` is the outcome of `url::Url::parse` on the URL string:
`none` when parsing fails, `some pathSegments` when it succeeds, where
`pathSegments` is the value of `Url::path_segments()` (`none` for
cannot-be-a-base URLs, mapped to the empty vector by `map_or(Vec::new(), ...)`).
`now` is the instant delivered by `chrono::Utc::now()`. -/
def derive_filename_from_url (parsedUrl : Option (Option (List String)))
    (now : Timestamp) : Except MainErr String :=
  match parsedUrl with
  | none => Except.error MainErr.invalidUrl
  | some pathSegments =>
    let segments : List String := pathSegments.getD []
    match segments.reverse.find? (fun s => !s.isEmpty) with
    | some last =>
      if last.data.contains '.' then Except.ok last
      else Except.ok ("download_" ++ now.format ++ ".bin")
    | none => Except.ok ("download_" ++ now.format ++ ".bin")

/-- Display string of Rust `Path::join`: an absolute right operand replaces
the left, otherwise the two are joined with a single `/` separator (none is
added when the left operand already ends in one). String boundary tests are
written on the character list `data` of the string, which is equivalent to
the byte-level tests Rust performs on these UTF-8 paths. -/
def pathJoin (dir file : String) : String :=
  if file.data.head? = some '/' then file
  else if dir.isEmpty then file
  else if dir.data.getLast? = some '/' then dir ++ file
  else dir ++ "/" ++ file

/-- `PATH_SEP` (main.rs lines 218-222), selected by `cfg(target_os)`. The
Rust constant is the one-character string `";"` or `":"`; splitting on it
coincides with splitting on the character. -/
def PATH_SEP (windows : Bool) : Char := if windows then ';' else ':'

/-- Rust `str::split(PATH_SEP)` of the `PATH` value: every occurrence of
the separator splits, empty fields are kept (so the empty string yields
one empty field, as in Rust). -/
def splitPath (windows : Bool) (p : String) : List String :=
  (p.data.splitOn (PATH_SEP windows)).map String.mk

/-- `which` (main.rs lines 243-255). `pathVar` is `env::var_os("PATH")`
after `to_string_lossy`; `isFile` is the `Path::is_file` test of the
surrounding filesystem. -/
def which (windows : Bool) (cmd : String) (pathVar : Option String)
    (isFile : String → Bool) : Option String :=
  match pathVar with
  | none => none
  | some path =>
    (splitPath windows path).findSome? (fun dir =>
      let candidate := pathJoin dir cmd
      if isFile candidate then some candidate else none)

/-- `reqwest::StatusCode::is_success`: the 2xx range. -/
def isSuccessStatus (code : Nat) : Bool := 200 ≤ code && code ≤ 299

/-- CLI arguments (main.rs lines 29-44). `directory` defaults to `"."` in
the real CLI; here it is an arbitrary string. -/
structure Args where
  url : String
  directory : String
  model_name : String
  filename : Option String
deriving DecidableEq

/-- The progress display selected at main.rs lines 76-79. -/
inductive ProgressMode where
  | bar (total : Nat)
  | spinner
deriving DecidableEq

/-- One observable external effect of `main`, in program order. -/
inductive Event where
  | createDirAll (path : String)
  | barInit (mode : ProgressMode)
  | createFile (path : String)
  | writeChunk (data : List Nat)
  | incProgress (n : Nat)
  | flushFile
  | finishProgress
  | infoMsg (msg : String)
  | warnMsg (msg : String)
  | errMsg (msg : String)
  | writeFile (path : String) (content : String)
  | runTool (exe : String) (args : List String)
deriving DecidableEq

/-- Captured output of the spawned subprocess (`std::process::Output`):
`success` is `status.success()`, `code` is `status.code()`. -/
structure ToolOutput where
  success : Bool
  code : Option Int
  stdout : String
  stderr : String
deriving DecidableEq

/-- The HTTP response delivered by `reqwest::get`: status code, optional
`Content-Length`, and the chunk stream (each item `Ok` data or a mid-stream
transport error). -/
structure HttpResponse where
  status : Nat
  contentLength : Option Nat
  chunks : List (Except Unit (List Nat))

/-- The outside world of one run: outcomes of every third-party call made
by `main`. -/
structure Env where
  parsedUrl : Option (Option (List String))
  timestamp : Timestamp
  response : Except Unit HttpResponse
  pathVar : Option String
  isFile : String → Bool
  toolResult : Except String ToolOutput
  windows : Bool

/-- Rust `{:?}` rendering of `Option<i32>`. -/
def codeDebug : Option Int → String
  | some c => "Some(" ++ toString c ++ ")"
  | none => "None"

/-- The streaming loop of main.rs lines 96-100: for each `Ok` chunk, a
`write_all` followed by `pb.inc(len)`; the first `Err` chunk aborts the
loop through `?` with a transport error. -/
def streamChunks : List (Except Unit (List Nat)) → List Event × Except MainErr Unit
  | [] => ([], Except.ok ())
  | Except.error _ :: _ => ([], Except.error MainErr.network)
  | Except.ok data :: rest =>
    let r := streamChunks rest
    (Event.writeChunk data :: Event.incProgress data.length :: r.1, r.2)

/-- The `ollama` step of main.rs lines 118-143: locate the executable,
then spawn it with `-f <model_file>` and report the outcome. Every outcome
of this phase leaves `main` returning `Ok(())`. -/
def toolPhase (windows : Bool) (pathVar : Option String) (isFile : String → Bool)
    (toolResult : Except String ToolOutput) (bin_file model_file : String) :
    List Event :=
  match which windows "ollama" pathVar isFile with
  | none => [Event.warnMsg "Could not find \x27ollama\x27 executable in PATH"]
  | some ollama_exec =>
    Event.infoMsg ("Installing file " ++ bin_file ++ "...") ::
    Event.runTool ollama_exec ["-f", model_file] ::
    match toolResult with
    | Except.ok o =>
      if o.success then [Event.infoMsg o.stdout]
      else [Event.errMsg ("error (code " ++ codeDebug o.code ++ "): " ++ o.stderr)]
    | Except.error e => [Event.errMsg ("failed to spawn: " ++ e)]

/-- Output-file-name resolution of main.rs lines 58-61. -/
def resolveFileName (args : Args) (env : Env) : Except MainErr String :=
  match args.filename with
  | some name => Except.ok name
  | none => derive_filename_from_url env.parsedUrl env.timestamp

/-- The Rust `main` (main.rs lines 47-145), after CLI parsing: trace of
external effects plus the returned `Result` (`Err` makes the process exit
non-zero). Named `mainRun` because Lean reserves `main` for entry points. -/
def mainRun (args : Args) (env : Env) : List Event × Except MainErr Unit :=
  -- fs::create_dir_all(&args.directory)? (line 57)
  let ev0 : List Event := [Event.createDirAll args.directory]
  match resolveFileName args env with
  | Except.error e => (ev0, Except.error e)
  | Except.ok file_name =>
    let out_path := pathJoin args.directory file_name
    -- let response = reqwest::get(&args.url).await? (line 67)
    match env.response with
    | Except.error _ => (ev0, Except.error MainErr.network)
    | Except.ok response =>
      -- status check (lines 68-70)
      if isSuccessStatus response.status then
        -- progress bar selection (lines 75-79)
        let pbEv := Event.barInit (match response.contentLength with
          | some len => ProgressMode.bar len
          | none => ProgressMode.spinner)
        -- File::create(&out_path) (line 94) and the streaming loop
        let ev1 := ev0 ++ [pbEv, Event.createFile out_path]
        match streamChunks response.chunks with
        | (chunkEvs, Except.error e) => (ev1 ++ chunkEvs, Except.error e)
        | (chunkEvs, Except.ok _) =>
          let bin_file := out_path
          let model_file := pathJoin args.directory "ModelFile"
          -- flush (101), finish_with_message (103), info (104-107),
          -- write_to_file of ModelFile (110-111), info (112-115)
          let ev2 := ev1 ++ chunkEvs ++
            [Event.flushFile, Event.finishProgress,
             Event.infoMsg ("Downloaded \x27" ++ args.url ++ "\x27 => \x27" ++
               bin_file ++ "\x27"),
             Event.writeFile model_file ("FROM " ++ bin_file),
             Event.infoMsg ("Successfully create file \x27" ++ model_file ++ "\x27")]
          (ev2 ++ toolPhase env.windows env.pathVar env.isFile env.toolResult
              bin_file model_file,
           Except.ok ())
      else (ev0, Except.error (MainErr.httpStatus response.status))

/-- Rust `Path::parent` on the display strings used here: `None` for the
empty path and the root, otherwise the path with its last component
dropped (`Some("")` for a bare file name, `Some("/")` directly under the
root). -/
def parentOf (path : String) : Option String :=
  if path = "" ∨ path = "/" then none
  else
    let parts := path.data.splitOn '/'
    let parts := if parts.getLast? = some [] then parts.dropLast else parts
    match parts.dropLast with
    | [] => some ""
    | [[]] => some "/"
    | ps => some (String.mk (List.intercalate ['/'] ps))

/-- One filesystem operation attempted by `write_to_file`, in order. -/
inductive FsOp where
  | createDirAll (path : String)
  | openCreateTruncate (path : String)
  | writeAll (content : List Nat)
  | flushOp
  | canonicalize (path : String)
deriving DecidableEq

/-- Outcomes the filesystem gives to the five steps of `write_to_file`;
`Except.error ()` stands for an `io::Error` (the spec's `IOError`). -/
structure FsOutcome where
  createDirAll : Except Unit Unit
  openFile : Except Unit Unit
  writeAll : Except Unit Unit
  flush : Except Unit Unit
  canonicalize : Except Unit String

/-- `write_to_file` (main.rs lines 180-216): create the parent directory
chain when the path has a parent, open create-or-truncate, write the
content, flush, and return the canonicalized path. Each `?` aborts with
the `io::Error` of the failing step. Returns the attempted operations in
order together with the `io::Result<PathBuf>`. -/
def write_to_file (target_path : String) (content : List Nat) (fs : FsOutcome) :
    List FsOp × Except Unit String :=
  -- step 1: if let Some(parent) = path.parent() { fs::create_dir_all(parent)? }
  let dirStep : List FsOp × Except Unit Unit :=
    match parentOf target_path with
    | some parent => ([FsOp.createDirAll parent], fs.createDirAll)
    | none => ([], Except.ok ())
  match dirStep with
  | (ops, Except.error e) => (ops, Except.error e)
  | (ops, Except.ok _) =>
    -- step 2: OpenOptions::new().write(true).create(true).truncate(true).open(path)?
    match fs.openFile with
    | Except.error e => (ops ++ [FsOp.openCreateTruncate target_path], Except.error e)
    | Except.ok _ =>
      -- step 3: file.write_all(content.as_ref())?
      match fs.writeAll with
      | Except.error e =>
        (ops ++ [FsOp.openCreateTruncate target_path, FsOp.writeAll content],
         Except.error e)
      | Except.ok _ =>
        -- step 4: file.flush()?
        match fs.flush with
        | Except.error e =>
          (ops ++ [FsOp.openCreateTruncate target_path, FsOp.writeAll content,
            FsOp.flushOp], Except.error e)
        | Except.ok _ =>
          -- step 5: path.canonicalize()
          match fs.canonicalize with
          | Except.error e =>
            (ops ++ [FsOp.openCreateTruncate target_path, FsOp.writeAll content,
              FsOp.flushOp, FsOp.canonicalize target_path], Except.error e)
          | Except.ok canon =>
            (ops ++ [FsOp.openCreateTruncate target_path, FsOp.writeAll content,
              FsOp.flushOp, FsOp.canonicalize target_path], Except.ok canon)

/-- Modelled from the spec: a canonicalized path is "absolute,
symlink-resolved"; on the non-Windows platforms this program models, an
absolute path begins with the root separator `/`. The canonicalization
itself is performed by the operating system, not by code of this
repository; only this absoluteness property of its result is used. -/
def isAbsolutePath (p : String) : Bool := p.data.head? == some '/' 

/-- The chunk payloads written to the output file by the events of a
trace, in order. -/
def chunkWrites (evs : List Event) : List (List Nat) :=
  evs.filterMap (fun e => match e with | Event.writeChunk d => some d | _ => none)

/-- The descriptor writes of a trace: `(path, content)` pairs, in order. -/
def descriptorWrites (evs : List Event) : List (String × String) :=
  evs.filterMap (fun e => match e with
    | Event.writeFile p c => some (p, c) | _ => none)

/-- The output files created by a trace, in order. -/
def fileCreates (evs : List Event) : List String :=
  evs.filterMap (fun e => match e with | Event.createFile p => some p | _ => none)

/-- The progress displays initialised by a trace, in order. -/
def barInits (evs : List Event) : List ProgressMode :=
  evs.filterMap (fun e => match e with | Event.barInit m => some m | _ => none)

/-- Final progress position of a trace: the sum of all `pb.inc` amounts. -/
def progressTotal (evs : List Event) : Nat :=
  (evs.filterMap (fun e => match e with | Event.incProgress n => some n | _ => none)).sum

/-- The events emitted by the streaming loop on an error-free chunk list. -/
def streamEvents (datas : List (List Nat)) : List Event :=
  (datas.map (fun d => [Event.writeChunk d, Event.incProgress d.length])).flatten

/-- The progress display chosen for a declared content length. -/
def modeOf (contentLength : Option Nat) : ProgressMode :=
  match contentLength with
  | some len => ProgressMode.bar len
  | none => ProgressMode.spinner

/-- The trace of a fully successful run, as emitted by `mainRun`. -/
def successTrace (args : Args) (env : Env) (fname : String)
    (resp : HttpResponse) (datas : List (List Nat)) : List Event :=
  [Event.createDirAll args.directory,
   Event.barInit (modeOf resp.contentLength),
   Event.createFile (pathJoin args.directory fname)] ++
  streamEvents datas ++
  [Event.flushFile, Event.finishProgress,
   Event.infoMsg ("Downloaded \x27" ++ args.url ++ "\x27 => \x27" ++
     pathJoin args.directory fname ++ "\x27"),
   Event.writeFile (pathJoin args.directory "ModelFile")
     ("FROM " ++ pathJoin args.directory fname),
   Event.infoMsg ("Successfully create file \x27" ++
     pathJoin args.directory "ModelFile" ++ "\x27")] ++
  toolPhase env.windows env.pathVar env.isFile env.toolResult
    (pathJoin args.directory fname) (pathJoin args.directory "ModelFile")


/-- A sample UTC instant used by the concrete witnesses below. -/
def tsEx : Timestamp := ⟨2026, 10, 12, 1, 2, 3⟩

/-- Sample arguments: default directory `"."`, explicit output filename. -/
def argsEx : Args := ⟨"https://example.com/data.json", ".", "mymodel", some "data.json"⟩

/-- A successful two-chunk HTTP response with declared length 4. -/
def respEx : HttpResponse := ⟨200, some 4, [Except.ok [104, 105], Except.ok [33, 10]]⟩

/-- The chunk payloads of `respEx`. -/
def datasEx : List (List Nat) := [[104, 105], [33, 10]]

/-- A world where the request succeeds and `PATH` is unset. -/
def envEx : Env :=
  ⟨some (some ["data.json"]), tsEx, Except.ok respEx, none, fun _ => false,
   Except.error "spawn failed", false⟩

/-- A 404 response. -/
def respEx404 : HttpResponse := ⟨404, none, []⟩

/-- The world of `envEx` with a 404 response instead. -/
def envEx404 : Env :=
  ⟨some (some ["data.json"]), tsEx, Except.ok respEx404, none, fun _ => false,
   Except.error "spawn failed", false⟩

/-- Arguments carrying a syntactically invalid URL and an explicit
output filename. -/
def argsExBadUrl : Args := ⟨"not a url", ".", "mymodel", some "file.bin"⟩

/-- A world where URL parsing fails and the HTTP request fails too. -/
def envExBadUrl : Env :=
  ⟨none, tsEx, Except.error (), none, fun _ => false, Except.error "spawn failed",
   false⟩

/-- A filesystem where every step of `write_to_file` succeeds and
canonicalization yields `canon`. -/
def fsOk (canon : String) : FsOutcome :=
  ⟨Except.ok (), Except.ok (), Except.ok (), Except.ok (), Except.ok canon⟩

/-- A filesystem where opening the output file fails. -/
def fsOpenFail : FsOutcome :=
  ⟨Except.ok (), Except.error (), Except.ok (), Except.ok (), Except.ok "/x"⟩

lemma streamChunks_ok (datas : List (List Nat)) :
    streamChunks (datas.map Except.ok) = (streamEvents datas, Except.ok ()) := by
  induction datas with
  | nil => rfl
  | cons d rest ih => simp [streamChunks, streamEvents, ih]

lemma chunkWrites_append (a b : List Event) :
    chunkWrites (a ++ b) = chunkWrites a ++ chunkWrites b :=
  List.filterMap_append a b _

lemma descriptorWrites_append (a b : List Event) :
    descriptorWrites (a ++ b) = descriptorWrites a ++ descriptorWrites b :=
  List.filterMap_append a b _

lemma fileCreates_append (a b : List Event) :
    fileCreates (a ++ b) = fileCreates a ++ fileCreates b :=
  List.filterMap_append a b _

lemma barInits_append (a b : List Event) :
    barInits (a ++ b) = barInits a ++ barInits b :=
  List.filterMap_append a b _

lemma progressTotal_append (a b : List Event) :
    progressTotal (a ++ b) = progressTotal a + progressTotal b := by
  simp [progressTotal, List.filterMap_append]

lemma chunkWrites_streamEvents (datas : List (List Nat)) :
    chunkWrites (streamEvents datas) = datas := by
  induction datas with
  | nil => rfl
  | cons d rest ih => simp [streamEvents, chunkWrites] at ih ⊢; simpa using ih

lemma progressTotal_streamEvents (datas : List (List Nat)) :
    progressTotal (streamEvents datas) = (datas.map List.length).sum := by
  induction datas with
  | nil => rfl
  | cons d rest ih => simp [streamEvents, progressTotal] at ih ⊢; simpa using ih

lemma descriptorWrites_streamEvents (datas : List (List Nat)) :
    descriptorWrites (streamEvents datas) = [] := by
  induction datas with
  | nil => rfl
  | cons d rest ih => simp [streamEvents, descriptorWrites, ih]

lemma fileCreates_streamEvents (datas : List (List Nat)) :
    fileCreates (streamEvents datas) = [] := by
  induction datas with
  | nil => rfl
  | cons d rest ih => simp [streamEvents, fileCreates, ih]

lemma barInits_streamEvents (datas : List (List Nat)) :
    barInits (streamEvents datas) = [] := by
  induction datas with
  | nil => rfl
  | cons d rest ih => simp [streamEvents, barInits, ih]

lemma flushFile_not_mem_streamEvents (datas : List (List Nat)) :
    Event.flushFile ∉ streamEvents datas := by
  induction datas with
  | nil => simp [streamEvents]
  | cons d rest ih => simp [streamEvents, ih]

lemma chunkWrites_toolPhase (w : Bool) (pv : Option String) (isF : String → Bool)
    (tr : Except String ToolOutput) (bf mf : String) :
    chunkWrites (toolPhase w pv isF tr bf mf) = [] := by
  unfold toolPhase
  cases which w "ollama" pv isF with
  | none => rfl
  | some exe =>
    cases tr with
    | error e => rfl
    | ok o =>
      by_cases h : o.success <;> simp [h, chunkWrites]

lemma descriptorWrites_toolPhase (w : Bool) (pv : Option String) (isF : String → Bool)
    (tr : Except String ToolOutput) (bf mf : String) :
    descriptorWrites (toolPhase w pv isF tr bf mf) = [] := by
  unfold toolPhase
  cases which w "ollama" pv isF with
  | none => rfl
  | some exe =>
    cases tr with
    | error e => rfl
    | ok o =>
      by_cases h : o.success <;> simp [h, descriptorWrites]

lemma flushFile_not_mem_toolPhase (w : Bool) (pv : Option String) (isF : String → Bool)
    (tr : Except String ToolOutput) (bf mf : String) :
    Event.flushFile ∉ toolPhase w pv isF tr bf mf := by
  unfold toolPhase
  cases which w "ollama" pv isF with
  | none => simp
  | some exe =>
    cases tr with
    | error e => simp
    | ok o =>
      by_cases h : o.success <;> simp [h]

lemma mainRun_success (args : Args) (env : Env) (fname : String)
    (resp : HttpResponse) (datas : List (List Nat))
    (hname : resolveFileName args env = Except.ok fname)
    (hresp : env.response = Except.ok resp)
    (hst : isSuccessStatus resp.status = true)
    (hchunks : resp.chunks = datas.map Except.ok) :
    mainRun args env = (successTrace args env fname resp datas, Except.ok ()) := by
  unfold mainRun successTrace
  rw [hname, hresp]
  simp only [hst, if_true, hchunks, streamChunks_ok, modeOf]
  simp

lemma progressTotal_toolPhase (w : Bool) (pv : Option String) (isF : String → Bool)
    (tr : Except String ToolOutput) (bf mf : String) :
    progressTotal (toolPhase w pv isF tr bf mf) = 0 := by
  unfold toolPhase
  cases which w "ollama" pv isF with
  | none => rfl
  | some exe =>
    cases tr with
    | error e => rfl
    | ok o =>
      by_cases h : o.success <;> simp [h, progressTotal]

lemma barInits_toolPhase (w : Bool) (pv : Option String) (isF : String → Bool)
    (tr : Except String ToolOutput) (bf mf : String) :
    barInits (toolPhase w pv isF tr bf mf) = [] := by
  unfold toolPhase
  cases which w "ollama" pv isF with
  | none => rfl
  | some exe =>
    cases tr with
    | error e => rfl
    | ok o =>
      by_cases h : o.success <;> simp [h, barInits]

lemma streamChunks_result (chunks : List (Except Unit (List Nat))) :
    (streamChunks chunks).2 = Except.ok () ∨
    (streamChunks chunks).2 = Except.error MainErr.network := by
  induction chunks with
  | nil => left; rfl
  | cons c rest ih =>
    cases c with
    | error e => right; rfl
    | ok d => simpa [streamChunks] using ih

lemma find?_append_of_none {α} {p : α → Bool} (l₁ l₂ : List α)
    (h : l₁.find? p = none) : (l₁ ++ l₂).find? p = l₂.find? p := by
  induction l₁ with
  | nil => rfl
  | cons a rest ih =>
    rw [List.find?_eq_none] at h
    rw [List.cons_append, List.find?_cons_of_neg _ (h a (List.mem_cons_self a rest))]
    exact ih (List.find?_eq_none.mpr (fun x hx => h x (List.mem_cons_of_mem a hx)))

lemma find?_eq_some_split {α} {p : α → Bool} {l : List α} {x : α}
    (h : l.find? p = some x) :
    ∃ as bs, l = as ++ x :: bs ∧ p x = true ∧ ∀ a ∈ as, p a = false := by
  induction l with
  | nil => simp [List.find?] at h
  | cons a rest ih =>
    by_cases ha : p a
    · rw [List.find?_cons_of_pos _ ha] at h
      cases h
      exact ⟨[], rest, rfl, ha, by simp⟩
    · rw [List.find?_cons_of_neg _ ha] at h
      obtain ⟨as, bs, heq, hx, hall⟩ := ih h
      refine ⟨a :: as, bs, by rw [heq, List.cons_append], hx, ?_⟩
      intro y hy
      rcases List.mem_cons.mp hy with rfl | hy
      · exact Bool.eq_false_iff.mpr ha
      · exact hall y hy

lemma findSome?_append_first {α β} (pre suf : List α) (x : α) (f : α → Option β)
    (y : β) (hpre : ∀ a ∈ pre, f a = none) (hx : f x = some y) :
    (pre ++ x :: suf).findSome? f = some y := by
  induction pre with
  | nil => simp [List.findSome?, hx]
  | cons a rest ih =>
    rw [List.cons_append, List.findSome?]
    rw [hpre a (List.mem_cons_self a rest)]
    exact ih (fun b hb => hpre b (List.mem_cons_of_mem a hb))

lemma findSome?_eq_none_of_all {α β} (l : List α) (f : α → Option β)
    (h : ∀ a ∈ l, f a = none) : l.findSome? f = none := by
  induction l with
  | nil => rfl
  | cons a rest ih =>
    rw [List.findSome?, h a (List.mem_cons_self a rest)]
    exact ih (fun b hb => h b (List.mem_cons_of_mem a hb))

lemma digitChar_isDigit (n : Nat) : (digitChar n).isDigit = true := by
  unfold digitChar
  have h : n % 10 < 10 := Nat.mod_lt _ (by norm_num)
  generalize n % 10 = k at h ⊢
  interval_cases k <;> rfl

lemma reverse_find?_of_split (pre suf : List String) (x : String)
    (hx : x.isEmpty = false) (hsuf : ∀ s ∈ suf, s = "") :
    (pre ++ x :: suf).reverse.find? (fun s => !s.isEmpty) = some x := by
  have hnone : (suf.reverse).find? (fun s => !s.isEmpty) = none := by
    rw [List.find?_eq_none]
    intro s hs
    have hse : s = "" := hsuf s (List.mem_reverse.mp hs)
    subst hse
    decide
  rw [List.reverse_append, List.reverse_cons, List.append_assoc,
      find?_append_of_none _ _ hnone, List.singleton_append,
      List.find?_cons_of_pos _ (by simp [hx])]

lemma reverse_find?_eq_some_split {l : List String} {x : String}
    (h : l.reverse.find? (fun s => !s.isEmpty) = some x) :
    ∃ pre suf, l = pre ++ x :: suf ∧ x.isEmpty = false ∧ ∀ s ∈ suf, s = "" := by
  obtain ⟨as, bs, heq, hx, hall⟩ := find?_eq_some_split h
  refine ⟨bs.reverse, as.reverse, ?_, by simpa using hx, ?_⟩
  · have h2 := congrArg List.reverse heq
    simpa [List.reverse_append] using h2
  · intro s hs
    have hmem : s ∈ as := List.mem_reverse.mp hs
    have h3 := hall s hmem
    simp only [Bool.not_eq_true'] at h3
    exact (String.isEmpty_iff s).mp (by simpa using h3)

lemma pad2_digits (n : Nat) : (pad2 n).toList.all Char.isDigit = true := by
  simp [pad2, String.toList, digitChar_isDigit]

lemma pad4_digits (n : Nat) : (pad4 n).toList.all Char.isDigit = true := by
  simp [pad4, String.toList, digitChar_isDigit]

lemma format_shape (t : Timestamp) :
    ∃ dpart tpart, t.format = dpart ++ "_" ++ tpart ∧ dpart.length = 8 ∧
      tpart.length = 6 ∧ dpart.toList.all Char.isDigit = true ∧
      tpart.toList.all Char.isDigit = true := by
  refine ⟨pad4 t.year ++ pad2 t.month ++ pad2 t.day,
          pad2 t.hour ++ pad2 t.minute ++ pad2 t.second, ?_, ?_, ?_, ?_, ?_⟩
  · simp [Timestamp.format, String.append_assoc]
  · have h4 : ∀ n, (pad4 n).length = 4 := fun n => rfl
    have h2 : ∀ n, (pad2 n).length = 2 := fun n => rfl
    simp [String.length_append, h4, h2]
  · have h2 : ∀ n, (pad2 n).length = 2 := fun n => rfl
    simp [String.length_append, h2]
  · simp [pad4, pad2, String.toList, String.data_append, digitChar_isDigit]
  · simp [pad2, String.toList, String.data_append, digitChar_isDigit]

/-- C9: the required model-name argument is parsed but never read: two runs
that differ only in its value have identical traces (files, messages) and
identical results (exit codes). -/
theorem C9_model_name_has_no_effect (u d m1 m2 : String) (f : Option String)
    (env : Env) :
    mainRun ⟨u, d, m1, f⟩ env = mainRun ⟨u, d, m2, f⟩ env := rfl

/-- C4: for every run whose filename resolution succeeded and whose HTTP
response carries a non-2xx status, `main` returns the HTTP status error
carrying that status (so the process exits non-zero) having emitted only
the initial directory creation: the output file is never created and no
byte and no descriptor is ever written. -/
theorem C4_http_status_aborts_before_file (args : Args) (env : Env)
    (fname : String) (resp : HttpResponse)
    (hname : resolveFileName args env = Except.ok fname)
    (hresp : env.response = Except.ok resp)
    (hbad : isSuccessStatus resp.status = false) :
    mainRun args env = ([Event.createDirAll args.directory],
      Except.error (MainErr.httpStatus resp.status)) ∧
    fileCreates (mainRun args env).1 = [] ∧
    chunkWrites (mainRun args env).1 = [] ∧
    descriptorWrites (mainRun args env).1 = [] := by
  have h : mainRun args env = ([Event.createDirAll args.directory],
      Except.error (MainErr.httpStatus resp.status)) := by
    unfold mainRun
    rw [hname, hresp]
    simp [hbad]
  refine ⟨h, ?_, ?_, ?_⟩ <;> rw [h] <;> rfl

theorem C4_http_status_aborts_before_file_witness :
    mainRun argsEx envEx404 = ([Event.createDirAll "."],
      Except.error (MainErr.httpStatus 404)) ∧
    fileCreates (mainRun argsEx envEx404).1 = [] ∧
    chunkWrites (mainRun argsEx envEx404).1 = [] ∧
    descriptorWrites (mainRun argsEx envEx404).1 = [] :=
  C4_http_status_aborts_before_file argsEx envEx404 "data.json" respEx404 rfl rfl rfl

lemma mainRun_result_of_resolve_ok (args : Args) (env : Env) (n : String)
    (h : resolveFileName args env = Except.ok n) :
    (mainRun args env).2 = Except.ok () ∨
    (mainRun args env).2 = Except.error MainErr.network ∨
    ∃ c, (mainRun args env).2 = Except.error (MainErr.httpStatus c) := by
  unfold mainRun
  rw [h]
  cases henv : env.response with
  | error e => simp
  | ok resp =>
    by_cases hst : isSuccessStatus resp.status
    · simp only [hst, if_true]
      rcases hsc : streamChunks resp.chunks with ⟨evs, r⟩
      have hr := streamChunks_result resp.chunks
      rw [hsc] at hr
      cases r with
      | error e =>
        rcases hr with h1 | h1
        · exact absurd h1 (by simp)
        · simp only [Except.error.injEq] at h1
          subst h1
          simp
      | ok u => simp
    · simp [hst]

/-- C10: with an explicit output filename, resolution returns it verbatim
and never parses the URL: even for a URL that does not parse, the run
never fails with InvalidUrl, and any failure comes from the HTTP exchange
(transport error or status error). -/
theorem C10_explicit_filename_skips_url_parse (args : Args) (env : Env)
    (n : String) (hf : args.filename = some n) (hbadurl : env.parsedUrl = none) :
    resolveFileName args env = Except.ok n ∧
    (mainRun args env).2 ≠ Except.error MainErr.invalidUrl ∧
    (∀ r, (mainRun args env).2 = Except.error r →
      r = MainErr.network ∨ ∃ c, r = MainErr.httpStatus c) := by
  have hres : resolveFileName args env = Except.ok n := by
    unfold resolveFileName
    rw [hf]
  have h3 := mainRun_result_of_resolve_ok args env n hres
  refine ⟨hres, ?_, ?_⟩
  · rcases h3 with h | h | ⟨c, h⟩ <;> rw [h] <;> simp
  · intro r hr
    rcases h3 with h | h | ⟨c, h⟩
    · rw [h] at hr
      exact absurd hr (by simp)
    · rw [h] at hr
      left
      simpa using hr.symm
    · rw [h] at hr
      right
      exact ⟨c, by simpa using hr.symm⟩

theorem C10_explicit_filename_skips_url_parse_witness :
    resolveFileName argsExBadUrl envExBadUrl = Except.ok "file.bin" ∧
    (mainRun argsExBadUrl envExBadUrl).2 ≠ Except.error MainErr.invalidUrl ∧
    (∀ r, (mainRun argsExBadUrl envExBadUrl).2 = Except.error r →
      r = MainErr.network ∨ ∃ c, r = MainErr.httpStatus c) :=
  C10_explicit_filename_skips_url_parse argsExBadUrl envExBadUrl "file.bin" rfl rfl

/-- C1 (amended): for every successful run, the descriptor written at
`<directory>/ModelFile` is exactly `FROM ` followed by the display of the
joined output path `<directory>/<filename>` as resolved from the command
line (not canonicalized: it is absolute only when the given directory is),
with no trailing content, and it is the only descriptor write of the
run. -/
theorem C1_descriptor_is_joined_path (args : Args) (env : Env) (fname : String)
    (resp : HttpResponse) (datas : List (List Nat))
    (hname : resolveFileName args env = Except.ok fname)
    (hresp : env.response = Except.ok resp)
    (hst : isSuccessStatus resp.status = true)
    (hchunks : resp.chunks = datas.map Except.ok) :
    descriptorWrites (mainRun args env).1 =
      [(pathJoin args.directory "ModelFile",
        "FROM " ++ pathJoin args.directory fname)] := by
  rw [mainRun_success args env fname resp datas hname hresp hst hchunks]
  unfold successTrace
  rw [descriptorWrites_append, descriptorWrites_append, descriptorWrites_append,
    descriptorWrites_streamEvents, descriptorWrites_toolPhase]
  rfl

theorem C1_descriptor_is_joined_path_witness :
    descriptorWrites (mainRun argsEx envEx).1 =
      [(pathJoin "." "ModelFile", "FROM " ++ pathJoin "." "data.json")] :=
  C1_descriptor_is_joined_path argsEx envEx "data.json" respEx datasEx rfl rfl rfl rfl

/-- C1 counterexample: with the default destination directory `.` the run
writes descriptor content `FROM ./data.json`, and `./data.json` is not an
absolute path, so the content is not `FROM ` followed by the canonical
(absolute, symlink-resolved) path of the downloaded file: the program
never canonicalizes the path it interpolates. -/
theorem C1_descriptor_not_canonical_counterexample :
    descriptorWrites (mainRun argsEx envEx).1 =
      [("./ModelFile", "FROM ./data.json")] ∧
    isAbsolutePath "./data.json" = false := by
  constructor
  · rfl
  · rfl

/-- C5: every run that reaches the external-tool step (that is, every run
that completed the download and the descriptor write) returns success, no
matter how the tool step goes; tool-not-found yields a warning message,
a non-zero tool exit yields an error message with the exit code and
stderr, and a spawn failure yields an error message. -/
theorem C5_tool_step_never_fatal (args : Args) (env : Env) (fname : String)
    (resp : HttpResponse) (datas : List (List Nat))
    (hname : resolveFileName args env = Except.ok fname)
    (hresp : env.response = Except.ok resp)
    (hst : isSuccessStatus resp.status = true)
    (hchunks : resp.chunks = datas.map Except.ok) :
    (mainRun args env).2 = Except.ok () ∧
    (which env.windows "ollama" env.pathVar env.isFile = none →
      Event.warnMsg "Could not find \x27ollama\x27 executable in PATH" ∈
        (mainRun args env).1) ∧
    (∀ exe o, which env.windows "ollama" env.pathVar env.isFile = some exe →
      env.toolResult = Except.ok o → o.success = false →
      Event.errMsg ("error (code " ++ codeDebug o.code ++ "): " ++ o.stderr) ∈
        (mainRun args env).1) ∧
    (∀ exe e, which env.windows "ollama" env.pathVar env.isFile = some exe →
      env.toolResult = Except.error e →
      Event.errMsg ("failed to spawn: " ++ e) ∈ (mainRun args env).1) := by
  rw [mainRun_success args env fname resp datas hname hresp hst hchunks]
  refine ⟨rfl, ?_, ?_, ?_⟩
  · intro hw
    simp [successTrace, toolPhase, hw]
  · intro exe o hwhich htr hsucc
    simp [successTrace, toolPhase, hwhich, htr, hsucc]
  · intro exe e hwhich htr
    simp [successTrace, toolPhase, hwhich, htr]

theorem C5_tool_step_never_fatal_witness :
    (mainRun argsEx envEx).2 = Except.ok () ∧
    (which envEx.windows "ollama" envEx.pathVar envEx.isFile = none →
      Event.warnMsg "Could not find \x27ollama\x27 executable in PATH" ∈
        (mainRun argsEx envEx).1) ∧
    (∀ exe o, which envEx.windows "ollama" envEx.pathVar envEx.isFile = some exe →
      envEx.toolResult = Except.ok o → o.success = false →
      Event.errMsg ("error (code " ++ codeDebug o.code ++ "): " ++ o.stderr) ∈
        (mainRun argsEx envEx).1) ∧
    (∀ exe e, which envEx.windows "ollama" envEx.pathVar envEx.isFile = some exe →
      envEx.toolResult = Except.error e →
      Event.errMsg ("failed to spawn: " ++ e) ∈ (mainRun argsEx envEx).1) :=
  C5_tool_step_never_fatal argsEx envEx "data.json" respEx datasEx rfl rfl rfl rfl

/-- C3: in every successful run the chunk payloads written to the output
file are exactly the streamed chunks in arrival order (so the byte content
of the file is their exact concatenation, with nothing dropped, duplicated
or reordered), no chunk write occurs after the flush, and the flush
precedes the single descriptor write. -/
theorem C3_stream_integrity_and_flush_order (args : Args) (env : Env)
    (fname : String) (resp : HttpResponse) (datas : List (List Nat))
    (hname : resolveFileName args env = Except.ok fname)
    (hresp : env.response = Except.ok resp)
    (hst : isSuccessStatus resp.status = true)
    (hchunks : resp.chunks = datas.map Except.ok) :
    ∃ t1 t2, (mainRun args env).1 = t1 ++ Event.flushFile :: t2 ∧
      chunkWrites t1 = datas ∧
      (chunkWrites t1).flatten = datas.flatten ∧
      chunkWrites t2 = [] ∧
      descriptorWrites t1 = [] ∧
      descriptorWrites t2 = [(pathJoin args.directory "ModelFile",
        "FROM " ++ pathJoin args.directory fname)] ∧
      (mainRun args env).2 = Except.ok () := by
  rw [mainRun_success args env fname resp datas hname hresp hst hchunks]
  refine ⟨[Event.createDirAll args.directory,
    Event.barInit (modeOf resp.contentLength),
    Event.createFile (pathJoin args.directory fname)] ++ streamEvents datas,
    [Event.finishProgress,
     Event.infoMsg ("Downloaded \x27" ++ args.url ++ "\x27 => \x27" ++
       pathJoin args.directory fname ++ "\x27"),
     Event.writeFile (pathJoin args.directory "ModelFile")
       ("FROM " ++ pathJoin args.directory fname),
     Event.infoMsg ("Successfully create file \x27" ++
       pathJoin args.directory "ModelFile" ++ "\x27")] ++
    toolPhase env.windows env.pathVar env.isFile env.toolResult
      (pathJoin args.directory fname) (pathJoin args.directory "ModelFile"),
    ?_, ?_, ?_, ?_, ?_, ?_, rfl⟩
  · simp [successTrace]
  · rw [chunkWrites_append, chunkWrites_streamEvents]
    rfl
  · rw [chunkWrites_append, chunkWrites_streamEvents]
    rfl
  · rw [chunkWrites_append, chunkWrites_toolPhase]
    rfl
  · rw [descriptorWrites_append, descriptorWrites_streamEvents]
    rfl
  · rw [descriptorWrites_append, descriptorWrites_toolPhase]
    rfl

theorem C3_stream_integrity_and_flush_order_witness :
    ∃ t1 t2, (mainRun argsEx envEx).1 = t1 ++ Event.flushFile :: t2 ∧
      chunkWrites t1 = datasEx ∧
      (chunkWrites t1).flatten = datasEx.flatten ∧
      chunkWrites t2 = [] ∧
      descriptorWrites t1 = [] ∧
      descriptorWrites t2 = [(pathJoin "." "ModelFile",
        "FROM " ++ pathJoin "." "data.json")] ∧
      (mainRun argsEx envEx).2 = Except.ok () :=
  C3_stream_integrity_and_flush_order argsEx envEx "data.json" respEx datasEx
    rfl rfl rfl rfl

/-- C7: when the response declares content length `N` the run initialises
the determinate bar with total `N` (and no other display); the final
progress position is the sum of all chunk lengths; at every intermediate
point of the loop the progress position equals the cumulative number of
bytes written so far; hence when the chunks total exactly `N` the bar
reaches `N` (100%) exactly at the last chunk. -/
theorem C7_progress_invariant (args : Args) (env : Env) (fname : String)
    (resp : HttpResponse) (datas : List (List Nat)) (N : Nat)
    (hname : resolveFileName args env = Except.ok fname)
    (hresp : env.response = Except.ok resp)
    (hst : isSuccessStatus resp.status = true)
    (hchunks : resp.chunks = datas.map Except.ok)
    (hlen : resp.contentLength = some N) :
    barInits (mainRun args env).1 = [ProgressMode.bar N] ∧
    progressTotal (mainRun args env).1 = (datas.map List.length).sum ∧
    (∀ pre suf, datas = pre ++ suf →
      progressTotal (streamChunks (pre.map Except.ok)).1 =
        ((chunkWrites (streamChunks (pre.map Except.ok)).1).flatten).length) ∧
    ((datas.map List.length).sum = N → progressTotal (mainRun args env).1 = N) := by
  rw [mainRun_success args env fname resp datas hname hresp hst hchunks]
  have htotal : progressTotal (successTrace args env fname resp datas) =
      (datas.map List.length).sum := by
    unfold successTrace
    rw [progressTotal_append, progressTotal_append, progressTotal_append,
      progressTotal_streamEvents, progressTotal_toolPhase]
    simp [progressTotal]
  refine ⟨?_, htotal, ?_, ?_⟩
  · unfold successTrace
    rw [barInits_append, barInits_append, barInits_append,
      barInits_streamEvents, barInits_toolPhase]
    simp [barInits, modeOf, hlen]
  · intro pre suf hsplit
    rw [streamChunks_ok, chunkWrites_streamEvents, progressTotal_streamEvents,
      List.length_flatten]
  · intro hN
    rw [htotal, hN]

theorem C7_progress_invariant_witness :
    barInits (mainRun argsEx envEx).1 = [ProgressMode.bar 4] ∧
    progressTotal (mainRun argsEx envEx).1 = (datasEx.map List.length).sum ∧
    (∀ pre suf, datasEx = pre ++ suf →
      progressTotal (streamChunks (pre.map Except.ok)).1 =
        ((chunkWrites (streamChunks (pre.map Except.ok)).1).flatten).length) ∧
    ((datasEx.map List.length).sum = 4 → progressTotal (mainRun argsEx envEx).1 = 4) :=
  C7_progress_invariant argsEx envEx "data.json" respEx datasEx 4 rfl rfl rfl rfl rfl

/-- C6: `which` reads the `PATH` variable, splits it on the platform
separator (`;` on Windows, `:` otherwise, every occurrence splitting), and
returns the candidate `<dir>/<tool>` of the first directory in split order
whose candidate is a regular file; it returns `none` exactly in the two
described cases: `PATH` absent, or no directory yielding a regular
file. -/
theorem C6_which_first_match (windows : Bool) (cmd : String)
    (pathVar : Option String) (isFile : String → Bool) :
    (PATH_SEP true = ';' ∧ PATH_SEP false = ':') ∧
    (pathVar = none → which windows cmd pathVar isFile = none) ∧
    (∀ p pre dir suf, pathVar = some p →
      splitPath windows p = pre ++ dir :: suf →
      (∀ d ∈ pre, isFile (pathJoin d cmd) = false) →
      isFile (pathJoin dir cmd) = true →
      which windows cmd pathVar isFile = some (pathJoin dir cmd)) ∧
    (∀ p, pathVar = some p →
      (∀ d ∈ splitPath windows p, isFile (pathJoin d cmd) = false) →
      which windows cmd pathVar isFile = none) := by
  refine ⟨⟨rfl, rfl⟩, ?_, ?_, ?_⟩
  · intro h
    rw [h]
    rfl
  · intro p pre dir suf hp hsplit hpre hdir
    unfold which
    rw [hp]
    simp only
    rw [hsplit]
    exact findSome?_append_first pre suf dir _ (pathJoin dir cmd)
      (fun a ha => by simp [hpre a ha]) (by simp [hdir])
  · intro p hp hall
    unfold which
    rw [hp]
    simp only
    exact findSome?_eq_none_of_all _ _ (fun a ha => by simp [hall a ha])

theorem C6_which_first_match_witness :
    which false "ollama" (some "/sbin:/usr/bin") (fun q => q == "/usr/bin/ollama") =
      some (pathJoin "/usr/bin" "ollama") :=
  (C6_which_first_match false "ollama" (some "/sbin:/usr/bin")
      (fun q => q == "/usr/bin/ollama")).2.2.1
    "/sbin:/usr/bin" ["/sbin"] "/usr/bin" [] rfl rfl
    (by intro d hd; rcases List.mem_singleton.mp hd with rfl; rfl) rfl

/-- C2: filename derivation fails (and fails with InvalidUrl) exactly when
the URL does not parse; when the URL parses and the last non-empty path
segment (scanning from the end) contains a `.`, it returns that segment
verbatim; when no such dotted final non-empty segment exists it returns
`download_<ts>.bin` where `<ts>` is the UTC timestamp formatted
`YYYYMMDD_HHMMSS` (8 digits, `_`, 6 digits). -/
theorem C2_derive_filename_spec (pr : Option (Option (List String)))
    (ts : Timestamp) (hts : ts.valid) :
    (derive_filename_from_url pr ts = Except.error MainErr.invalidUrl ↔ pr = none) ∧
    (∀ e, derive_filename_from_url pr ts = Except.error e → e = MainErr.invalidUrl) ∧
    (∀ pu pre seg suf, pr = some pu → pu.getD [] = pre ++ seg :: suf →
      seg.isEmpty = false → (∀ s ∈ suf, s = "") → seg.data.contains '.' = true →
      derive_filename_from_url pr ts = Except.ok seg) ∧
    (∀ pu, pr = some pu →
      (∀ pre seg suf, pu.getD [] = pre ++ seg :: suf → seg.isEmpty = false →
        (∀ s ∈ suf, s = "") → seg.data.contains '.' = false) →
      derive_filename_from_url pr ts =
        Except.ok ("download_" ++ ts.format ++ ".bin") ∧
      ∃ dpart tpart, ts.format = dpart ++ "_" ++ tpart ∧ dpart.length = 8 ∧
        tpart.length = 6 ∧ dpart.toList.all Char.isDigit = true ∧
        tpart.toList.all Char.isDigit = true) := by
  refine ⟨?_, ?_, ?_, ?_⟩
  · constructor
    · intro h
      cases pr with
      | none => rfl
      | some pu =>
        exfalso
        simp only [derive_filename_from_url] at h
        split at h
        · split at h <;> simp_all
        · simp at h
    · intro h
      subst h
      rfl
  · intro e h
    cases pr with
    | none =>
      simp only [derive_filename_from_url, Except.error.injEq] at h
      exact h.symm
    | some pu =>
      exfalso
      simp only [derive_filename_from_url] at h
      split at h
      · split at h <;> simp_all
      · simp at h
  · intro pu pre seg suf hpr hdecomp hne hsuf hdot
    subst hpr
    have hfind := reverse_find?_of_split pre suf seg hne hsuf
    simp only [derive_filename_from_url]
    rw [hdecomp, hfind]
    have hmem : '.' ∈ seg.data := by simpa using hdot
    simp [hmem]
  · intro pu hpr hno
    subst hpr
    refine ⟨?_, format_shape ts⟩
    simp only [derive_filename_from_url]
    rcases hf : (pu.getD []).reverse.find? (fun s => !s.isEmpty) with _ | seg
    · rw [hf]
    · rw [hf]
      obtain ⟨pre, suf, hdec, hne, hsuf⟩ := reverse_find?_eq_some_split hf
      have hnd := hno pre seg suf hdec hne hsuf
      have hmem : '.' ∉ seg.data := by simpa using hnd
      simp [hmem]

theorem C2_derive_filename_spec_witness :
    (derive_filename_from_url (some (some ["docs", "data.json"])) tsEx =
        Except.error MainErr.invalidUrl ↔
      (some (some ["docs", "data.json"]) : Option (Option (List String))) = none) ∧
    (∀ e, derive_filename_from_url (some (some ["docs", "data.json"])) tsEx =
        Except.error e → e = MainErr.invalidUrl) ∧
    (∀ pu pre seg suf,
      (some (some ["docs", "data.json"]) : Option (Option (List String))) = some pu →
      pu.getD [] = pre ++ seg :: suf →
      seg.isEmpty = false → (∀ s ∈ suf, s = "") → seg.data.contains '.' = true →
      derive_filename_from_url (some (some ["docs", "data.json"])) tsEx =
        Except.ok seg) ∧
    (∀ pu,
      (some (some ["docs", "data.json"]) : Option (Option (List String))) = some pu →
      (∀ pre seg suf, pu.getD [] = pre ++ seg :: suf → seg.isEmpty = false →
        (∀ s ∈ suf, s = "") → seg.data.contains '.' = false) →
      derive_filename_from_url (some (some ["docs", "data.json"])) tsEx =
        Except.ok ("download_" ++ tsEx.format ++ ".bin") ∧
      ∃ dpart tpart, tsEx.format = dpart ++ "_" ++ tpart ∧ dpart.length = 8 ∧
        tpart.length = 6 ∧ dpart.toList.all Char.isDigit = true ∧
        tpart.toList.all Char.isDigit = true) :=
  C2_derive_filename_spec (some (some ["docs", "data.json"])) tsEx
    (by unfold Timestamp.valid; decide)

/-- C8: `write_to_file` attempts, in order, parent-chain creation (when
the target path has a parent), a create-or-truncate open of the target, a
write of exactly the given bytes, and a flush, and returns the
canonicalized path of the target; if any of the five filesystem steps
fails, the result is that step's IO error. -/
theorem C8_write_to_file_spec (path : String) (content : List Nat)
    (fs : FsOutcome) :
    (∀ canon, fs.createDirAll = Except.ok () → fs.openFile = Except.ok () →
      fs.writeAll = Except.ok () → fs.flush = Except.ok () →
      fs.canonicalize = Except.ok canon →
      write_to_file path content fs =
        ((match parentOf path with
          | some parent => [FsOp.createDirAll parent]
          | none => []) ++
         [FsOp.openCreateTruncate path, FsOp.writeAll content, FsOp.flushOp,
          FsOp.canonicalize path], Except.ok canon)) ∧
    (((parentOf path ≠ none ∧ fs.createDirAll = Except.error ()) ∨
      fs.openFile = Except.error () ∨ fs.writeAll = Except.error () ∨
      fs.flush = Except.error () ∨ fs.canonicalize = Except.error ()) →
      (write_to_file path content fs).2 = Except.error ()) := by
  obtain ⟨f1, f2, f3, f4, f5⟩ := fs
  constructor
  · intro canon h1 h2 h3 h4 h5
    simp only at h1 h2 h3 h4 h5
    subst h1
    subst h2
    subst h3
    subst h4
    subst h5
    unfold write_to_file
    cases hp : parentOf path <;> simp [hp]
  · intro h
    unfold write_to_file
    cases hp : parentOf path <;>
      cases f1 <;> cases f2 <;> cases f3 <;> cases f4 <;> cases f5 <;>
      simp_all

theorem C8_write_to_file_spec_witness :
    write_to_file "out/ModelFile" [70, 82] (fsOk "/abs/out/ModelFile") =
      ([FsOp.createDirAll "out", FsOp.openCreateTruncate "out/ModelFile",
        FsOp.writeAll [70, 82], FsOp.flushOp, FsOp.canonicalize "out/ModelFile"],
       Except.ok "/abs/out/ModelFile") :=
  (C8_write_to_file_spec "out/ModelFile" [70, 82] (fsOk "/abs/out/ModelFile")).1
    "/abs/out/ModelFile" rfl rfl rfl rfl rfl
